import Mathlib

/-!
Shallow embedding of `src/generator.py` (AI-Bulk-Blog-Generator).

Python strings are modelled as `List Char` (sequences of code points); the
string-library fragment the program uses (`lower`, `strip`, `replace`,
`split`, slicing, `startswith`, `isalnum`, `join`) is embedded over the
ASCII fragment of Unicode, which is the fragment the program's own data
(titles, Markdown text, filenames) lives in.  The external Gemini API is
the program's only non-deterministic collaborator; each of its three call
sites (article generation, meta-description, keywords) is abstracted as an
oracle returning `some text` (the call's `response.text`) or `none` (the
call raised).  Time is modelled by recording every `time.sleep` in an
event trace.
-/

namespace BlogGen

/-- Python strings, as lists of code points. -/
abbrev Str := List Char

/-- Python's ASCII whitespace set for `str.split()` / `str.strip()`:
space, tab, newline, carriage return, vertical tab, form feed. -/
def py_is_space (c : Char) : Bool :=
  c = ' ' || c = '\t' || c = '\n' || c = '\r' || c = '\x0b' || c = '\x0c'

/-- Python `s.strip()`: remove whitespace from both ends. -/
def py_strip (s : Str) : Str :=
  ((s.dropWhile py_is_space).reverse.dropWhile py_is_space).reverse

/-- Python `s.strip(chars)`: remove any of `chars` from both ends
(used by the source as `.strip('"\'')`). -/
def py_strip_chars (chars : List Char) (s : Str) : Str :=
  ((s.dropWhile (chars.contains ·)).reverse.dropWhile (chars.contains ·)).reverse

/-- Fuel-driven worker for `py_remove`; the fuel (initially the length of
the string) only makes the recursion structural and never runs out. -/
def py_remove_go (p : Char) (ps : List Char) : Nat → Str → Str
  | _, [] => []
  | 0, s => s
  | fuel + 1, c :: rest =>
    if (p :: ps).isPrefixOf (c :: rest) then py_remove_go p ps fuel (rest.drop ps.length)
    else c :: py_remove_go p ps fuel rest

/-- Python `s.replace(pat, '')` for a non-empty pattern `p :: ps`:
remove every occurrence, scanning left to right, non-overlapping. -/
def py_remove (p : Char) (ps : List Char) (s : Str) : Str :=
  py_remove_go p ps s.length s

/-- Fuel-driven worker for `py_split_on`. -/
def py_split_on_go (p : Char) (ps : List Char) : Nat → Str → List Str
  | _, [] => [[]]
  | 0, s => [s]
  | fuel + 1, c :: rest =>
    if (p :: ps).isPrefixOf (c :: rest) then
      [] :: py_split_on_go p ps fuel (rest.drop ps.length)
    else
      match py_split_on_go p ps fuel rest with
      | [] => [[c]]
      | t :: ts => (c :: t) :: ts

/-- Python `s.split(sep)` for a non-empty separator `p :: ps`:
non-overlapping left-to-right split, keeping empty chunks. -/
def py_split_on (p : Char) (ps : List Char) (s : Str) : List Str :=
  py_split_on_go p ps s.length s

/-- Chunks of a string between single whitespace characters
(helper for `py_split_ws`; empty chunks still present). -/
def py_ws_chunks : Str → List Str
  | [] => [[]]
  | c :: rest =>
    if py_is_space c then [] :: py_ws_chunks rest
    else
      match py_ws_chunks rest with
      | [] => [[c]]
      | t :: ts => (c :: t) :: ts

/-- Python `s.split()` (no argument): split on whitespace runs,
discarding empty fields. -/
def py_split_ws (s : Str) : List Str :=
  (py_ws_chunks s).filter (· ≠ [])

/-- Python `s.lower()` on the ASCII fragment (`A`-`Z` map to `a`-`z`,
everything else in the fragment is fixed). -/
def py_lower (s : Str) : Str := s.map Char.toLower

/-- Python `sep.join(xs)`. -/
def py_join (sep : Str) (xs : List Str) : Str := List.intercalate sep xs

/-- Does `pat` occur as a contiguous subsequence of `s`? -/
def has_sub (pat : Str) : Str → Bool
  | [] => pat.isPrefixOf []
  | c :: rest => pat.isPrefixOf (c :: rest) || has_sub pat rest

/-! The program's data model and operations, translated from
`src/generator.py`. -/

/-- Result dict built by `generate_article_with_gemini`; `filepath` is
absent until the Output Writer adds it (`article_data['filepath'] = ...`). -/
structure ArticleData where
  title : Str
  content : Str
  meta_description : Str
  keywords : Str
  word_count : Nat
  filepath : Option Str
deriving DecidableEq, Repr

/-- One request dict from `articles_list`; a missing `'title'` /
`'description'` key is `none` (`article_info.get(key, '')` supplies `''`). -/
structure ArticleRequest where
  title : Option Str
  description : Option Str
deriving DecidableEq, Repr

/-- Oracle for the external Gemini calls made on behalf of one request:
`genText attempt` is `response.text` of the generation call on that
0-indexed attempt (`none` = the call raised); `metaText` / `kwText` are the
enrichment calls' `response.text` (`none` = raised). -/
structure GeminiOracle where
  genText : Nat → Option Str
  metaText : Option Str
  kwText : Option Str

/-- The backtick character, obtained from a string literal. -/
def backtick : Char := "`".toList.headD ' '

/-- Lines 91-92: `content.replace("```markdown", "").replace("```", "").strip()`
applied to `response.text.strip()` (line 89). -/
def clean_content (raw : Str) : Str :=
  py_strip (py_remove backtick "``".toList (py_remove backtick "``markdown".toList (py_strip raw)))

/-- Lines 94-96: `if not content.startswith("# "): content = f"# {title}\n\n" + content`. -/
def ensure_title_heading (title content : Str) : Str :=
  if ("# ".toList).isPrefixOf content then content
  else "# ".toList ++ title ++ "\n\n".toList ++ content

/-- Lines 124-139, `generate_meta_description(content)`: on success the
response text is stripped, stripped of quotes, and cut to 160 chars; on any
exception the fallback uses the second `'\n\n'` paragraph (or the first 200
chars), cut to 157 chars plus `"..."`. -/
def generate_meta_description (api : Option Str) (content : Str) : Str :=
  match api with
  | some text => (py_strip_chars ("\"'".toList) (py_strip text)).take 160
  | none =>
    let parts := py_split_on '\n' ['\n'] content
    let first_paragraph := if parts.length > 1 then parts.getD 1 [] else content.take 200
    first_paragraph.take 157 ++ "...".toList

/-- Lines 141-155, `generate_keywords(title, content)`: on success the
stripped response text; on any exception `", ".join(title.lower().split())`. -/
def generate_keywords (api : Option Str) (title content : Str) : Str :=
  match api with
  | some text => py_strip text
  | none => py_join ", ".toList (py_split_ws (py_lower title))

/-- The `for attempt in range(max_retries)` loop of
`generate_article_with_gemini` (lines 75-122), at the 0-indexed `attempt`
with `left` iterations of the range remaining (`left = max_retries - attempt`;
the loop ends when the range is exhausted).  Returns the function's return
value together with the list of backoff sleeps (`time.sleep(2 ** attempt)`,
line 119) performed, in order. -/
def gen_article_loop (g : GeminiOracle) (title : Str) (max_retries : Nat) :
    Nat → Nat → Option ArticleData × List Nat
  | _, 0 => (none, [])
  | attempt, left + 1 =>
    match g.genText attempt with
    | some text =>
      let content := ensure_title_heading title (clean_content text)
      (some { title := title
              content := content
              meta_description := generate_meta_description g.metaText content
              keywords := generate_keywords g.kwText title content
              word_count := (py_split_ws content).length
              filepath := none }, [])
    | none =>
      if attempt < max_retries - 1 then
        let r := gen_article_loop g title max_retries (attempt + 1) left
        (r.1, 2 ^ attempt :: r.2)
      else (none, [])

/-- Lines 34-122: `generate_article_with_gemini(title, description, max_retries)`;
the `description` argument is only interpolated into the prompt of the
opaque external call, so only the oracle sees it. -/
def generate_article_with_gemini (g : GeminiOracle) (title description : Str)
    (max_retries : Nat) : Option ArticleData × List Nat :=
  gen_article_loop g title max_retries 0 max_retries

/-- Lines 157-219, `save_article_as_html`: the derived filepath
(`Path(output_dir) / f"{filename}.html"`); the file body is the fixed HTML
template around `article_data['content']`, which no claim consults. -/
def save_article_as_html (article_data : ArticleData) (output_dir : Str) : Str :=
  let filename := ((py_lower article_data.title).map fun c => if c = ' ' then '-' else c).map
    fun c => if c = '/' then '-' else c
  let filename := filename.filter fun c => c.isAlphanum || c = '-'
  output_dir ++ '/' :: (filename ++ ".html".toList)

/-- Lines 221-233, `save_article_as_markdown`: the derived filepath; the
file body is `article_data['content']` verbatim. -/
def save_article_as_markdown (article_data : ArticleData) (output_dir : Str) : Str :=
  let filename := ((py_lower article_data.title).map fun c => if c = ' ' then '-' else c).map
    fun c => if c = '/' then '-' else c
  let filename := filename.filter fun c => c.isAlphanum || c = '-'
  output_dir ++ '/' :: (filename ++ ".md".toList)

/-- Observable events of a bulk run, in program order: the skip warning
(line 264), entry into `generate_article_with_gemini` (line 268), each
backoff `time.sleep(2 ** attempt)` (line 119, tagged with the request
index), each file written (lines 215-216 / 229-230), the failure log
(line 284), and the pacing `time.sleep(2)` (line 282). -/
inductive Ev where
  | warn (i : Nat)
  | genCall (i : Nat)
  | backoff (i : Nat) (secs : Nat)
  | writeFile (path : Str)
  | genFailed (i : Nat)
  | pace (i : Nat) (secs : Nat)
deriving DecidableEq, Repr

/-- The `for i, article_info in enumerate(articles_list, 1)` loop of
`generate_bulk_articles` (lines 255-284), from index `i`, with `n` the
length of the whole `articles_list`.  `g i` is the Gemini oracle serving
request `i`.  Returns the accumulated `results` and the event trace. -/
def bulk_loop (g : Nat → GeminiOracle) (output_format output_dir : Str) (n : Nat) :
    Nat → List ArticleRequest → List ArticleData × List Ev
  | _, [] => ([], [])
  | i, article_info :: rest =>
    let title := article_info.title.getD []
    let description := article_info.description.getD []
    if title = [] then
      let r := bulk_loop g output_format output_dir n (i + 1) rest
      (r.1, Ev.warn i :: r.2)
    else
      let gen := generate_article_with_gemini (g i) title description 3
      match gen.1 with
      | some article_data =>
        let filepath :=
          if py_lower output_format = "html".toList then save_article_as_html article_data output_dir
          else save_article_as_markdown article_data output_dir
        let article_data := { article_data with filepath := some filepath }
        let r := bulk_loop g output_format output_dir n (i + 1) rest
        (article_data :: r.1,
          Ev.genCall i :: (gen.2.map (Ev.backoff i) ++ Ev.writeFile filepath ::
            ((if i < n then [Ev.pace i 2] else []) ++ r.2)))
      | none =>
        let r := bulk_loop g output_format output_dir n (i + 1) rest
        (r.1, Ev.genCall i :: (gen.2.map (Ev.backoff i) ++ Ev.genFailed i :: r.2))

/-- Lines 235-293, `generate_bulk_articles(articles_list, output_format, output_dir)`:
the returned `results` list and the run's event trace. -/
def generate_bulk_articles (g : Nat → GeminiOracle) (articles_list : List ArticleRequest)
    (output_format output_dir : Str) : List ArticleData × List Ev :=
  bulk_loop g output_format output_dir articles_list.length 1 articles_list

/-- One element of the summary's `articles` array (lines 302-310). -/
structure SummaryEntry where
  title : Str
  filepath : Str
  word_count : Nat
  meta_description : Str
deriving DecidableEq, Repr

/-- The JSON object written to `generation_summary.json` (lines 299-311). -/
structure RunSummary where
  total_articles : Nat
  generation_date : Str
  articles : List SummaryEntry
deriving DecidableEq, Repr

/-- Lines 295-316, `save_generation_summary(results, output_dir)`: the
summary object persisted (the run timestamp is passed in explicitly). -/
def save_generation_summary (results : List ArticleData) (date : Str) : RunSummary :=
  { total_articles := results.length
    generation_date := date
    articles := results.map fun r =>
      { title := r.title
        filepath := r.filepath.getD []
        word_count := r.word_count
        meta_description := r.meta_description } }

/-! Trace extractors: the sub-sequences of a run trace a claim talks about. -/

/-- Indices of the skip warnings in a trace, in order. -/
def warn_events : List Ev → List Nat
  | [] => []
  | .warn i :: t => i :: warn_events t
  | .genCall _ :: t | .backoff _ _ :: t | .writeFile _ :: t
  | .genFailed _ :: t | .pace _ _ :: t => warn_events t

/-- Indices of the generation-call entries in a trace, in order. -/
def genCall_events : List Ev → List Nat
  | [] => []
  | .genCall i :: t => i :: genCall_events t
  | .warn _ :: t | .backoff _ _ :: t | .writeFile _ :: t
  | .genFailed _ :: t | .pace _ _ :: t => genCall_events t

/-- Paths of the files written in a trace, in order. -/
def write_events : List Ev → List Str
  | [] => []
  | .writeFile p :: t => p :: write_events t
  | .warn _ :: t | .genCall _ :: t | .backoff _ _ :: t
  | .genFailed _ :: t | .pace _ _ :: t => write_events t

/-- The pacing sleeps in a trace (request index, seconds), in order. -/
def pace_events : List Ev → List (Nat × Nat)
  | [] => []
  | .pace i s :: t => (i, s) :: pace_events t
  | .warn _ :: t | .genCall _ :: t | .backoff _ _ :: t
  | .writeFile _ :: t | .genFailed _ :: t => pace_events t

/-- The per-request denotation of the batch loop: what request `p.1` (its
1-based index) with dict `p.2` contributes to the returned `results` list —
nothing when the title is empty or generation fails, otherwise the article
record with the written file's path attached. -/
def request_outcome (g : Nat → GeminiOracle) (output_format output_dir : Str)
    (p : Nat × ArticleRequest) : Option ArticleData :=
  if p.2.title.getD [] = [] then none
  else
    match (generate_article_with_gemini (g p.1) (p.2.title.getD [])
        (p.2.description.getD []) 3).1 with
    | some d => some { d with filepath := some (if py_lower output_format = "html".toList
        then save_article_as_html d output_dir else save_article_as_markdown d output_dir) }
    | none => none

/-! Fuel irrelevance: the workers agree for any sufficient fuel, giving
the natural recursion equations for `py_remove` and `py_split_on`. -/

theorem py_remove_go_fuel (p : Char) (ps : List Char) :
    ∀ f₁ f₂ s, s.length ≤ f₁ → s.length ≤ f₂ →
      py_remove_go p ps f₁ s = py_remove_go p ps f₂ s := by
  intro f₁
  induction f₁ with
  | zero =>
    intro f₂ s h₁ _
    have : s = [] := List.length_eq_zero.mp (Nat.le_zero.mp h₁)
    subst this
    cases f₂ <;> rfl
  | succ f ih =>
    intro f₂ s h₁ h₂
    cases s with
    | nil => cases f₂ <;> rfl
    | cons c rest =>
      cases f₂ with
      | zero => exact absurd h₂ (by simp)
      | succ f' =>
        simp only [py_remove_go]
        by_cases hp : (p :: ps).isPrefixOf (c :: rest) = true
        · simp only [hp, if_true]
          apply ih
          · have := List.length_drop ps.length rest
            simp only [List.length_cons] at h₁
            omega
          · have := List.length_drop ps.length rest
            simp only [List.length_cons] at h₂
            omega
        · simp only [if_neg hp]
          have h₁' : rest.length ≤ f := by simp only [List.length_cons] at h₁; omega
          have h₂' : rest.length ≤ f' := by simp only [List.length_cons] at h₂; omega
          rw [ih f' rest h₁' h₂']

theorem py_remove_nil (p : Char) (ps : List Char) : py_remove p ps [] = [] := rfl

theorem py_remove_cons_pos (p : Char) (ps : List Char) (c : Char) (rest : Str)
    (h : (p :: ps).isPrefixOf (c :: rest) = true) :
    py_remove p ps (c :: rest) = py_remove p ps (rest.drop ps.length) := by
  unfold py_remove
  simp only [List.length_cons, py_remove_go, h, if_true]
  apply py_remove_go_fuel
  · have := List.length_drop ps.length rest
    omega
  · exact Nat.le_refl _

theorem py_remove_cons_neg (p : Char) (ps : List Char) (c : Char) (rest : Str)
    (h : ¬ (p :: ps).isPrefixOf (c :: rest) = true) :
    py_remove p ps (c :: rest) = c :: py_remove p ps rest := by
  unfold py_remove
  simp only [List.length_cons, py_remove_go, if_neg h]

theorem isPrefixOf_true_iff {l1 l2 : List Char} : l1.isPrefixOf l2 = true ↔ l1 <+: l2 :=
  List.isPrefixOf_iff_prefix

theorem warn_events_append (a b : List Ev) :
    warn_events (a ++ b) = warn_events a ++ warn_events b := by
  induction a with
  | nil => rfl
  | cons e t ih => cases e <;> simp [warn_events, ih]

theorem genCall_events_append (a b : List Ev) :
    genCall_events (a ++ b) = genCall_events a ++ genCall_events b := by
  induction a with
  | nil => rfl
  | cons e t ih => cases e <;> simp [genCall_events, ih]

theorem write_events_append (a b : List Ev) :
    write_events (a ++ b) = write_events a ++ write_events b := by
  induction a with
  | nil => rfl
  | cons e t ih => cases e <;> simp [write_events, ih]

theorem pace_events_append (a b : List Ev) :
    pace_events (a ++ b) = pace_events a ++ pace_events b := by
  induction a with
  | nil => rfl
  | cons e t ih => cases e <;> simp [pace_events, ih]

theorem warn_events_backoffs (i : Nat) (l : List Nat) :
    warn_events (l.map (Ev.backoff i)) = [] := by
  induction l with
  | nil => rfl
  | cons s t ih => simp [warn_events, ih]

theorem genCall_events_backoffs (i : Nat) (l : List Nat) :
    genCall_events (l.map (Ev.backoff i)) = [] := by
  induction l with
  | nil => rfl
  | cons s t ih => simp [genCall_events, ih]

theorem write_events_backoffs (i : Nat) (l : List Nat) :
    write_events (l.map (Ev.backoff i)) = [] := by
  induction l with
  | nil => rfl
  | cons s t ih => simp [write_events, ih]

theorem pace_events_backoffs (i : Nat) (l : List Nat) :
    pace_events (l.map (Ev.backoff i)) = [] := by
  induction l with
  | nil => rfl
  | cons s t ih => simp [pace_events, ih]

/-! Character-level facts about the ASCII case-mapping, needed for the
filename character-set property. -/

theorem char_toNat_ofNat {n : Nat} (h : n < 55296) : (Char.ofNat n).toNat = n := by
  have hv : n.isValidChar := Or.inl h
  rw [Char.ofNat, dif_pos hv]
  rfl

theorem char_isUpper_iff (c : Char) : c.isUpper = true ↔ 65 ≤ c.toNat ∧ c.toNat ≤ 90 := by
  simp [Char.isUpper, UInt32.le_def, BitVec.le_def, Char.toNat, UInt32.toNat]

theorem char_isLower_iff (c : Char) : c.isLower = true ↔ 97 ≤ c.toNat ∧ c.toNat ≤ 122 := by
  simp [Char.isLower, UInt32.le_def, BitVec.le_def, Char.toNat, UInt32.toNat]

theorem char_isDigit_iff (c : Char) : c.isDigit = true ↔ 48 ≤ c.toNat ∧ c.toNat ≤ 57 := by
  simp [Char.isDigit, UInt32.le_def, BitVec.le_def, Char.toNat, UInt32.toNat]

theorem char_toLower_not_upper (c : Char) : (Char.toLower c).isUpper = false := by
  rw [Char.toLower]
  by_cases h : c.toNat ≥ 65 ∧ c.toNat ≤ 90
  · rw [if_pos h]
    have hn : c.toNat + 32 < 55296 := by
      have := h.2
      omega
    rw [Bool.eq_false_iff]
    intro hu
    rw [char_isUpper_iff, char_toNat_ofNat hn] at hu
    omega
  · rw [if_neg h]
    rw [Bool.eq_false_iff]
    intro hu
    rw [char_isUpper_iff] at hu
    exact h hu

/-! The retry controller on a request whose generation call always fails. -/

theorem gen_article_loop_all_fail (g : GeminiOracle) (title : Str) (m : Nat) :
    ∀ left attempt, attempt + left = m →
      (∀ a, attempt ≤ a → a < m → g.genText a = none) →
      gen_article_loop g title m attempt left
        = (none, (List.range' attempt (m - 1 - attempt)).map (2 ^ ·)) := by
  intro left
  induction left with
  | zero =>
    intro attempt h _
    have h0 : m - 1 - attempt = 0 := by omega
    simp [gen_article_loop, h0]
  | succ left ih =>
    intro attempt h hall
    have hfail : g.genText attempt = none := hall attempt (Nat.le_refl _) (by omega)
    simp only [gen_article_loop, hfail]
    by_cases hlt : attempt < m - 1
    · rw [if_pos hlt]
      rw [ih (attempt + 1) (by omega) (fun a ha hb => hall a (by omega) hb)]
      have hsucc : m - 1 - attempt = (m - 1 - (attempt + 1)) + 1 := by omega
      rw [hsucc, List.range'_succ]
      simp
    · rw [if_neg hlt]
      have h0 : m - 1 - attempt = 0 := by omega
      simp [h0]

/-- C1: a request whose generation call fails on all `max_retries` attempts
makes `generate_article_with_gemini` return failure (`None`), and the
backoff sleeps between consecutive attempts are exactly
`2^0, 2^1, ..., 2^(max_retries-2)` seconds, with no sleep after the final
failed attempt. -/
theorem retry_exhaustion_fails_with_exponential_backoff
    (g : GeminiOracle) (title description : Str) (max_retries : Nat)
    (h : ∀ a, a < max_retries → g.genText a = none) :
    generate_article_with_gemini g title description max_retries
      = (none, (List.range (max_retries - 1)).map (2 ^ ·)) := by
  unfold generate_article_with_gemini
  rw [gen_article_loop_all_fail g title max_retries max_retries 0 (by omega)
    (fun a _ hb => h a hb)]
  rw [List.range_eq_range', Nat.sub_zero]

/-- Witness for C1 at a concrete always-failing oracle and the default
`max_retries = 3`: no result, sleeps `[1, 2]`. -/
theorem retry_exhaustion_fails_with_exponential_backoff_witness :
    generate_article_with_gemini ⟨fun _ => none, none, none⟩ "t".toList [] 3
      = (none, [1, 2]) := by
  rw [retry_exhaustion_fails_with_exponential_backoff ⟨fun _ => none, none, none⟩
    "t".toList [] 3 (fun a _ => rfl)]
  decide

/-- C4: for a non-empty title, both output writers derive the same base
name from the title, and that base name contains only lowercase ASCII
letters, digits and hyphens; the derivation is a pure function of the
title, so it is deterministic. -/
theorem filename_sanitization_charset_and_agreement
    (article_data : ArticleData) (output_dir : Str) (h : article_data.title ≠ []) :
    ∃ base : Str,
      save_article_as_html article_data output_dir
        = output_dir ++ '/' :: (base ++ ".html".toList) ∧
      save_article_as_markdown article_data output_dir
        = output_dir ++ '/' :: (base ++ ".md".toList) ∧
      ∀ c ∈ base, (97 ≤ c.toNat ∧ c.toNat ≤ 122) ∨ (48 ≤ c.toNat ∧ c.toNat ≤ 57) ∨ c = '-' := by
  refine ⟨(((py_lower article_data.title).map fun c => if c = ' ' then '-' else c).map
    fun c => if c = '/' then '-' else c).filter (fun c => c.isAlphanum || c = '-'), rfl, rfl, ?_⟩
  intro c hc
  rw [List.mem_filter] at hc
  obtain ⟨hmem, hp⟩ := hc
  rw [Bool.or_eq_true] at hp
  rcases hp with hal | heq
  · have hnotup : c.isUpper = false := by
      obtain ⟨c₁, hc₁, rfl⟩ := List.mem_map.mp hmem
      obtain ⟨c₀, hc₀, rfl⟩ := List.mem_map.mp hc₁
      rw [py_lower] at hc₀
      obtain ⟨a, _, rfl⟩ := List.mem_map.mp hc₀
      by_cases h0 : Char.toLower a = ' '
      · rw [if_pos h0, if_neg (by decide : ¬ ('-' : Char) = '/')]
        decide
      · rw [if_neg h0]
        by_cases h1 : Char.toLower a = '/'
        · rw [if_pos h1]
          decide
        · rw [if_neg h1]
          exact char_toLower_not_upper a
    rw [Char.isAlphanum, Bool.or_eq_true, Char.isAlpha, Bool.or_eq_true] at hal
    rcases hal with (hu | hl) | hd
    · rw [hnotup] at hu
      cases hu
    · exact Or.inl (char_isLower_iff c |>.mp hl)
    · exact Or.inr (Or.inl (char_isDigit_iff c |>.mp hd))
  · exact Or.inr (Or.inr (by simpa using heq))

/-- Witness for C4 at title `"My Blog/Post 1!"` (the derived base name
evaluates to `my-blogpost-1`). -/
theorem filename_sanitization_witness :
    "My Blog/Post 1!".toList ≠ ([] : Str) ∧
    ∃ base : Str,
      save_article_as_html
          { title := "My Blog/Post 1!".toList, content := [], meta_description := []
            keywords := [], word_count := 0, filepath := none } "blog".toList
        = "blog".toList ++ '/' :: (base ++ ".html".toList) ∧
      save_article_as_markdown
          { title := "My Blog/Post 1!".toList, content := [], meta_description := []
            keywords := [], word_count := 0, filepath := none } "blog".toList
        = "blog".toList ++ '/' :: (base ++ ".md".toList) ∧
      ∀ c ∈ base, (97 ≤ c.toNat ∧ c.toNat ≤ 122) ∨ (48 ≤ c.toNat ∧ c.toNat ≤ 57) ∨ c = '-' :=
  ⟨by decide, filename_sanitization_charset_and_agreement _ _ (by decide)⟩

/-- C5 counterexample: with title `"A"` and a generator response `"# B"`,
the returned content is `"# B"` unchanged — it does not begin with a
heading equal to the title, and no `"# A"` line was prepended, because the
code only tests `content.startswith("# ")`, not the heading's text. -/
theorem heading_counterexample :
    ((generate_article_with_gemini ⟨fun _ => some "# B".toList, none, none⟩
        "A".toList [] 3).1.map ArticleData.content) = some "# B".toList ∧
    ("# A".toList).isPrefixOf "# B".toList = false := by
  decide

/-- C5 (amended): the post-processed content is prepended with
`"# <title>\n\n"` exactly when it does not already start with `"# "`; the
pre-existing heading is not compared against the title, so the result is
only guaranteed to start with some `"# "` heading, not one equal to the
title. -/
theorem heading_prepended_iff_no_heading (title raw : Str) :
    (("# ".toList).isPrefixOf (clean_content raw) = true →
      ensure_title_heading title (clean_content raw) = clean_content raw) ∧
    (("# ".toList).isPrefixOf (clean_content raw) = false →
      ensure_title_heading title (clean_content raw)
        = "# ".toList ++ title ++ "\n\n".toList ++ clean_content raw) ∧
    ("# ".toList).isPrefixOf (ensure_title_heading title (clean_content raw)) = true := by
  refine ⟨?_, ?_, ?_⟩
  · intro h
    rw [ensure_title_heading, if_pos h]
  · intro h
    rw [ensure_title_heading, if_neg (by rw [h]; decide)]
  · rw [ensure_title_heading]
    by_cases h : ("# ".toList).isPrefixOf (clean_content raw) = true
    · rw [if_pos h]
      exact h
    · rw [if_neg h]
      rw [isPrefixOf_true_iff]
      simp [List.append_assoc]

/-- C6: when the description-enrichment call fails, the meta description is
non-empty, at most 160 characters, and computed locally: the second
`"\n\n"`-separated paragraph if one exists, otherwise the first 200
characters of the content, cut to 157 characters with `"..."` appended. -/
theorem meta_description_fallback_is_local_and_bounded (content : Str) :
    generate_meta_description none content ≠ [] ∧
    (generate_meta_description none content).length ≤ 160 ∧
    generate_meta_description none content
      = (if (py_split_on '\n' ['\n'] content).length > 1
         then (py_split_on '\n' ['\n'] content).getD 1 []
         else content.take 200).take 157 ++ "...".toList := by
  refine ⟨?_, ?_, rfl⟩
  · intro heq
    have hlen := congrArg List.length heq
    simp [generate_meta_description, List.length_append] at hlen
  · simp only [generate_meta_description, List.length_append, List.length_take]
    have h3 : ("...".toList).length = 3 := by decide
    rw [h3]
    omega

/-! Lowercasing commutes with whitespace splitting (for the keyword
fallback): `Char.toLower` maps `A`-`Z` into `a`-`z` and fixes everything
else, so it neither creates nor destroys whitespace. -/

theorem char_eq_iff_toNat {c d : Char} : c = d ↔ c.toNat = d.toNat :=
  ⟨fun h => by rw [h], fun h => Char.ext (UInt32.toNat.inj h)⟩

theorem py_is_space_eq_toNat (c : Char) :
    py_is_space c = decide (c.toNat = 32 ∨ c.toNat = 9 ∨ c.toNat = 10 ∨
      c.toNat = 13 ∨ c.toNat = 11 ∨ c.toNat = 12) := by
  have e0 : (' ' : Char).toNat = 32 := rfl
  have e1 : ('\t' : Char).toNat = 9 := rfl
  have e2 : ('\n' : Char).toNat = 10 := rfl
  have e3 : ('\r' : Char).toNat = 13 := rfl
  have e4 : ('\x0b' : Char).toNat = 11 := rfl
  have e5 : ('\x0c' : Char).toNat = 12 := rfl
  simp only [py_is_space, char_eq_iff_toNat, e0, e1, e2, e3, e4, e5]
  rw [Bool.eq_iff_iff]
  simp [Bool.or_eq_true, decide_eq_true_eq, or_assoc]

theorem py_is_space_toLower (c : Char) :
    py_is_space (Char.toLower c) = py_is_space c := by
  rw [Char.toLower]
  by_cases h : c.toNat ≥ 65 ∧ c.toNat ≤ 90
  · rw [if_pos h]
    rw [py_is_space_eq_toNat, py_is_space_eq_toNat c,
      char_toNat_ofNat (show c.toNat + 32 < 55296 by omega)]
    rw [decide_eq_decide]
    constructor <;> (intro h'; omega)
  · rw [if_neg h]

theorem py_ws_chunks_ne_nil (s : Str) : py_ws_chunks s ≠ [] := by
  cases s with
  | nil => simp [py_ws_chunks]
  | cons c rest =>
    simp only [py_ws_chunks]
    by_cases h : py_is_space c = true
    · simp [h]
    · rw [if_neg h]
      split <;> simp

theorem py_ws_chunks_lower (s : Str) :
    py_ws_chunks (py_lower s) = (py_ws_chunks s).map py_lower := by
  induction s with
  | nil => rfl
  | cons c rest ih =>
    simp only [py_lower, List.map_cons] at ih ⊢
    simp only [py_ws_chunks, py_is_space_toLower]
    by_cases h : py_is_space c = true
    · rw [if_pos h, if_pos h, ih]
      rfl
    · rw [if_neg h, if_neg h, ih]
      cases hm : py_ws_chunks rest with
      | nil => exact absurd hm (py_ws_chunks_ne_nil rest)
      | cons t ts => simp [py_lower]

theorem py_split_ws_lower (s : Str) :
    py_split_ws (py_lower s) = (py_split_ws s).map py_lower := by
  rw [py_split_ws, py_split_ws, py_ws_chunks_lower, List.filter_map]
  congr 1
  apply List.filter_congr
  intro t _
  simp [py_lower]

/-- C7: the keyword enricher's failure fallback is exactly the
whitespace-separated words of the title, lowercased, joined by `", "`
(both enrichers are total functions of the oracle, so neither can raise). -/
theorem keywords_fallback_is_lowercased_title_words (title content : Str) :
    generate_keywords none title content
      = py_join ", ".toList ((py_split_ws title).map py_lower) := by
  simp only [generate_keywords]
  rw [py_split_ws_lower]

/-! Behaviour of the literal-occurrence removal (C8). -/

theorem py_remove_prefix_self (p : Char) (ps b : List Char) :
    py_remove p ps ((p :: ps) ++ b) = py_remove p ps b := by
  have hp : (p :: ps).isPrefixOf ((p :: ps) ++ b) = true := by
    rw [isPrefixOf_true_iff]
    exact ⟨b, rfl⟩
  rw [List.cons_append] at hp
  rw [List.cons_append, py_remove_cons_pos p ps p (ps ++ b) hp, List.drop_left]

theorem py_remove_no_head (p : Char) (ps a b : List Char) (h : ∀ c ∈ a, c ≠ p) :
    py_remove p ps (a ++ b) = a ++ py_remove p ps b := by
  induction a with
  | nil => simp
  | cons c a' ih =>
    have hc : c ≠ p := h c (List.mem_cons_self c a')
    rw [List.cons_append, py_remove_cons_neg]
    · rw [ih (fun x hx => h x (List.mem_cons_of_mem c hx)), List.cons_append]
    · intro hcontra
      rw [List.isPrefixOf_cons₂, Bool.and_eq_true, beq_iff_eq] at hcontra
      exact hc hcontra.1.symm

theorem py_remove_short (p : Char) (ps s : List Char) (h : s.length < ps.length + 1) :
    py_remove p ps s = s := by
  induction s with
  | nil => rfl
  | cons c rest ih =>
    rw [py_remove_cons_neg]
    · rw [ih (by simp only [List.length_cons] at h; omega)]
    · intro hp
      rw [isPrefixOf_true_iff] at hp
      have hle := hp.length_le
      simp only [List.length_cons] at hle h
      omega

/-! Behaviour of `py_strip` at whitespace edges (C8). -/

theorem py_strip_cons_space (c : Char) (s : Str) (h : py_is_space c = true) :
    py_strip (c :: s) = py_strip s := by
  rw [py_strip, py_strip, List.dropWhile_cons, if_pos h]

theorem py_strip_append_space (s : Str) (c : Char) (h : py_is_space c = true) :
    py_strip (s ++ [c]) = py_strip s := by
  rw [py_strip, py_strip, List.dropWhile_append]
  by_cases he : (s.dropWhile py_is_space).isEmpty = true
  · rw [if_pos he]
    rw [List.isEmpty_iff.mp he]
    simp [List.dropWhile_cons, h]
  · rw [if_neg he]
    rw [List.reverse_append]
    simp [List.dropWhile_cons, h]

theorem py_strip_eq_self_of_ends (c d : Char) (mid : Str)
    (h1 : py_is_space c = false) (h2 : py_is_space d = false) :
    py_strip (c :: (mid ++ [d])) = c :: (mid ++ [d]) := by
  rw [py_strip, List.dropWhile_cons, if_neg (by rw [h1]; decide)]
  rw [show (c :: (mid ++ [d])).reverse = d :: (mid.reverse ++ [c]) from by simp]
  rw [List.dropWhile_cons, if_neg (by rw [h2]; decide)]
  simp

/-- C8 counterexample: a response that is not fence-wrapped (it does not
start with a fence) but contains an embedded code block comes out with the
embedded fences removed, not left unchanged: the post-processed content
differs from the (merely stripped) response and no longer contains any
triple backtick. -/
theorem embedded_fences_not_preserved :
    clean_content "# T\n\n```python\nx = 1\n```\n\nDone.".toList
      ≠ py_strip "# T\n\n```python\nx = 1\n```\n\nDone.".toList ∧
    ("```".toList).isPrefixOf "# T\n\n```python\nx = 1\n```\n\nDone.".toList = false ∧
    has_sub "```".toList "# T\n\n```python\nx = 1\n```\n\nDone.".toList = true ∧
    has_sub "```".toList
      (clean_content "# T\n\n```python\nx = 1\n```\n\nDone.".toList) = false := by
  decide

/-- C8 (amended): post-processing removes every occurrence of the literals
` ```markdown ` and ` ``` ` anywhere in the response and strips surrounding
whitespace.  In particular a response wrapped in a ` ```markdown ... ``` `
fence whose body contains no backtick yields the inner document (stripped);
but fences embedded in the body are removed as well, not left unchanged. -/
theorem fence_wrapper_stripped (body : Str) (h : backtick ∉ body) :
    clean_content ("```markdown\n".toList ++ body ++ "\n```".toList) = py_strip body := by
  have hshape : "```markdown\n".toList ++ body ++ "\n```".toList
      = backtick :: (("``markdown\n".toList ++ body ++ "\n``".toList) ++ [backtick]) := by
    have e1 : "```markdown\n".toList = backtick :: "``markdown\n".toList := by decide
    have e2 : "\n```".toList = "\n``".toList ++ [backtick] := by decide
    rw [e1, e2]
    simp [List.append_assoc]
  have hmid : ∀ x ∈ '\n' :: (body ++ ['\n']), x ≠ backtick := by
    intro x hx
    rcases List.mem_cons.mp hx with rfl | hx'
    · decide
    · rcases List.mem_append.mp hx' with hb | hn
      · intro he
        exact h (he ▸ hb)
      · rcases List.mem_singleton.mp hn with rfl
        decide
  have hstrip0 : py_strip ("```markdown\n".toList ++ body ++ "\n```".toList)
      = "```markdown\n".toList ++ body ++ "\n```".toList := by
    rw [hshape]
    exact py_strip_eq_self_of_ends backtick backtick _ (by decide) (by decide)
  have hsplit : "```markdown\n".toList ++ body ++ "\n```".toList
      = (backtick :: "``markdown".toList) ++ (('\n' :: (body ++ ['\n'])) ++ "``".toList ++ [backtick]) := by
    have e1 : "```markdown\n".toList = (backtick :: "``markdown".toList) ++ ['\n'] := by decide
    have e2 : "\n```".toList = ['\n'] ++ "``".toList ++ [backtick] := by decide
    rw [e1, e2]
    simp [List.append_assoc]
  rw [clean_content, hstrip0, hsplit]
  rw [py_remove_prefix_self backtick ("``markdown".toList)]
  have htail : ('\n' :: (body ++ ['\n'])) ++ "``".toList ++ [backtick]
      = ('\n' :: (body ++ ['\n'])) ++ "```".toList := by
    rw [List.append_assoc, show ("``".toList ++ [backtick] : Str) = "```".toList from by decide]
  rw [htail]
  rw [py_remove_no_head backtick ("``markdown".toList) _ _ hmid]
  rw [py_remove_short backtick ("``markdown".toList) ("```".toList) (by decide)]
  rw [py_remove_no_head backtick ("``".toList) _ _ hmid]
  rw [show ("```".toList : Str) = (backtick :: "``".toList) ++ [] from by decide]
  rw [py_remove_prefix_self backtick ("``".toList) [], py_remove_nil, List.append_nil]
  rw [py_strip_cons_space '\n' _ (by decide), py_strip_append_space _ '\n' (by decide)]

/-- Witness for C8 (amended) at a concrete fence-wrapped response. -/
theorem fence_wrapper_stripped_witness :
    backtick ∉ "# T\n\nHello".toList ∧
    clean_content ("```markdown\n".toList ++ "# T\n\nHello".toList ++ "\n```".toList)
      = py_strip "# T\n\nHello".toList :=
  ⟨by decide, fence_wrapper_stripped "# T\n\nHello".toList (by decide)⟩

theorem bulk_loop_nil (g : Nat → GeminiOracle) (fmt dir : Str) (n i : Nat) :
    bulk_loop g fmt dir n i [] = ([], []) := rfl

theorem bulk_loop_cons_skip (g : Nat → GeminiOracle) (fmt dir : Str) (n i : Nat)
    (req : ArticleRequest) (rest : List ArticleRequest) (ht : req.title.getD [] = []) :
    bulk_loop g fmt dir n i (req :: rest)
      = ((bulk_loop g fmt dir n (i + 1) rest).1,
         Ev.warn i :: (bulk_loop g fmt dir n (i + 1) rest).2) := by
  simp only [bulk_loop]
  rw [if_pos ht]

theorem bulk_loop_cons_fail (g : Nat → GeminiOracle) (fmt dir : Str) (n i : Nat)
    (req : ArticleRequest) (rest : List ArticleRequest) (ht : ¬ req.title.getD [] = [])
    (hgen : (generate_article_with_gemini (g i) (req.title.getD [])
      (req.description.getD []) 3).1 = none) :
    bulk_loop g fmt dir n i (req :: rest)
      = ((bulk_loop g fmt dir n (i + 1) rest).1,
         Ev.genCall i ::
           ((generate_article_with_gemini (g i) (req.title.getD [])
              (req.description.getD []) 3).2.map (Ev.backoff i)
            ++ Ev.genFailed i :: (bulk_loop g fmt dir n (i + 1) rest).2)) := by
  simp only [bulk_loop]
  rw [if_neg ht]
  simp only [hgen]

theorem bulk_loop_cons_success (g : Nat → GeminiOracle) (fmt dir : Str) (n i : Nat)
    (req : ArticleRequest) (rest : List ArticleRequest) (d : ArticleData)
    (ht : ¬ req.title.getD [] = [])
    (hgen : (generate_article_with_gemini (g i) (req.title.getD [])
      (req.description.getD []) 3).1 = some d) :
    bulk_loop g fmt dir n i (req :: rest)
      = ({ d with filepath := some (if py_lower fmt = "html".toList
            then save_article_as_html d dir else save_article_as_markdown d dir) }
           :: (bulk_loop g fmt dir n (i + 1) rest).1,
         Ev.genCall i ::
           ((generate_article_with_gemini (g i) (req.title.getD [])
              (req.description.getD []) 3).2.map (Ev.backoff i)
            ++ Ev.writeFile (if py_lower fmt = "html".toList
                then save_article_as_html d dir else save_article_as_markdown d dir)
              :: ((if i < n then [Ev.pace i 2] else [])
                  ++ (bulk_loop g fmt dir n (i + 1) rest).2))) := by
  simp only [bulk_loop]
  rw [if_neg ht]
  simp only [hgen]

/-- The batch loop, characterized per request: the results are the ordered
`filterMap` of `request_outcome` over the indexed request list, the warning
/ generation-call / write / pacing events are the corresponding ordered
projections. -/
theorem bulk_loop_spec (g : Nat → GeminiOracle) (fmt dir : Str) (n : Nat)
    (reqs : List ArticleRequest) : ∀ (i : Nat),
    (bulk_loop g fmt dir n i reqs).1
      = ((List.range' i reqs.length).zip reqs).filterMap (request_outcome g fmt dir)
    ∧ warn_events (bulk_loop g fmt dir n i reqs).2
      = ((List.range' i reqs.length).zip reqs).filterMap
          (fun p => if p.2.title.getD [] = [] then some p.1 else none)
    ∧ genCall_events (bulk_loop g fmt dir n i reqs).2
      = ((List.range' i reqs.length).zip reqs).filterMap
          (fun p => if p.2.title.getD [] = [] then none else some p.1)
    ∧ write_events (bulk_loop g fmt dir n i reqs).2
      = (bulk_loop g fmt dir n i reqs).1.map (fun r => r.filepath.getD [])
    ∧ pace_events (bulk_loop g fmt dir n i reqs).2
      = ((List.range' i reqs.length).zip reqs).filterMap
          (fun p => if p.2.title.getD [] = [] then none
            else if (generate_article_with_gemini (g p.1) (p.2.title.getD [])
                  (p.2.description.getD []) 3).1.isSome = true ∧ p.1 < n
              then some (p.1, 2) else none) := by
  induction reqs with
  | nil =>
    intro i
    simp [bulk_loop_nil, warn_events, genCall_events, write_events, pace_events]
  | cons req rest ih =>
    intro i
    obtain ⟨ih1, ih2, ih3, ih4, ih5⟩ := ih (i + 1)
    have hr : List.range' i (req :: rest).length = i :: List.range' (i + 1) rest.length := by
      simp [List.range'_succ]
    by_cases ht : req.title.getD [] = []
    · rw [bulk_loop_cons_skip g fmt dir n i req rest ht, hr]
      refine ⟨?_, ?_, ?_, ?_, ?_⟩
      · simp only [List.zip_cons_cons, List.filterMap_cons, request_outcome, if_pos ht]
        exact ih1
      · simp only [List.zip_cons_cons, List.filterMap_cons, if_pos ht, warn_events]
        rw [ih2]
      · simp only [List.zip_cons_cons, List.filterMap_cons, if_pos ht, genCall_events]
        exact ih3
      · simp only [write_events]
        exact ih4
      · simp only [List.zip_cons_cons, List.filterMap_cons, if_pos ht, pace_events]
        exact ih5
    · cases hgen : (generate_article_with_gemini (g i) (req.title.getD [])
        (req.description.getD []) 3).1 with
      | none =>
        rw [bulk_loop_cons_fail g fmt dir n i req rest ht hgen, hr]
        refine ⟨?_, ?_, ?_, ?_, ?_⟩
        · simp only [List.zip_cons_cons, List.filterMap_cons, request_outcome, if_neg ht, hgen]
          exact ih1
        · simp only [List.zip_cons_cons, List.filterMap_cons, if_neg ht, warn_events,
            warn_events_append, warn_events_backoffs]
          exact ih2
        · simp only [List.zip_cons_cons, List.filterMap_cons, if_neg ht, genCall_events,
            genCall_events_append, genCall_events_backoffs]
          rw [ih3]
          simp
        · simp only [write_events, write_events_append, write_events_backoffs]
          simpa using ih4
        · simp only [List.zip_cons_cons, List.filterMap_cons, if_neg ht, pace_events,
            pace_events_append, pace_events_backoffs, hgen]
          simpa using ih5
      | some d =>
        rw [bulk_loop_cons_success g fmt dir n i req rest d ht hgen, hr]
        refine ⟨?_, ?_, ?_, ?_, ?_⟩
        · simp only [List.zip_cons_cons, List.filterMap_cons, request_outcome, if_neg ht, hgen]
          rw [ih1]
        · simp only [List.zip_cons_cons, List.filterMap_cons, if_neg ht, warn_events,
            warn_events_append, warn_events_backoffs]
          by_cases hin : i < n
          · rw [if_pos hin]
            simpa [warn_events] using ih2
          · rw [if_neg hin]
            simpa [warn_events] using ih2
        · simp only [List.zip_cons_cons, List.filterMap_cons, if_neg ht, genCall_events,
            genCall_events_append, genCall_events_backoffs]
          by_cases hin : i < n
          · rw [if_pos hin]
            simp only [List.nil_append, genCall_events]
            rw [ih3]
          · rw [if_neg hin]
            simp only [List.nil_append, genCall_events]
            rw [ih3]
        · simp only [write_events, write_events_append, write_events_backoffs]
          by_cases hin : i < n
          · rw [if_pos hin]
            simp only [List.nil_append, write_events, List.map_cons]
            rw [ih4]
            simp
          · rw [if_neg hin]
            simp only [List.nil_append, write_events, List.map_cons]
            rw [ih4]
            simp
        · simp only [List.zip_cons_cons, List.filterMap_cons, if_neg ht, pace_events,
            pace_events_append, pace_events_backoffs, hgen]
          by_cases hin : i < n
          · rw [if_pos hin, if_pos (by simp [hgen, hin])]
            simp only [List.nil_append, pace_events]
            rw [ih5]
            simp
          · rw [if_neg hin, if_neg (by simp [hgen, hin])]
            simp only [List.nil_append, pace_events]
            rw [ih5]

/-- C2: `generate_bulk_articles` processes requests strictly in list
order: the returned list is the ordered `filterMap` of each indexed
request's outcome (so exactly one entry per request with a non-empty title
whose generation succeeded, in original order — an earlier failure or skip
never affects later requests), and the warnings are exactly the indices of
the empty-title requests, in order. -/
theorem bulk_results_in_order_skip_warned_failures_continue
    (g : Nat → GeminiOracle) (articles_list : List ArticleRequest) (fmt dir : Str) :
    (generate_bulk_articles g articles_list fmt dir).1
      = ((List.range' 1 articles_list.length).zip articles_list).filterMap
          (request_outcome g fmt dir)
    ∧ warn_events (generate_bulk_articles g articles_list fmt dir).2
      = ((List.range' 1 articles_list.length).zip articles_list).filterMap
          (fun p => if p.2.title.getD [] = [] then some p.1 else none) := by
  obtain ⟨h1, h2, -, -, -⟩ :=
    bulk_loop_spec g fmt dir articles_list.length articles_list 1
  exact ⟨h1, h2⟩

/-- C3: the persisted summary records exactly the successful results:
`total_articles` equals the number of entries, the entries are the
projections of the returned results in order (failed or skipped requests
contribute nothing), and the entries' filepaths are exactly the paths of
the files written during the run, in order. -/
theorem summary_entries_match_written_files
    (g : Nat → GeminiOracle) (articles_list : List ArticleRequest) (fmt dir date : Str) :
    (save_generation_summary (generate_bulk_articles g articles_list fmt dir).1 date).total_articles
      = (save_generation_summary
          (generate_bulk_articles g articles_list fmt dir).1 date).articles.length
    ∧ (save_generation_summary (generate_bulk_articles g articles_list fmt dir).1 date).articles
      = (generate_bulk_articles g articles_list fmt dir).1.map
          (fun r => { title := r.title, filepath := r.filepath.getD []
                      word_count := r.word_count, meta_description := r.meta_description })
    ∧ write_events (generate_bulk_articles g articles_list fmt dir).2
      = (save_generation_summary
          (generate_bulk_articles g articles_list fmt dir).1 date).articles.map
            SummaryEntry.filepath := by
  obtain ⟨-, -, -, h4, -⟩ :=
    bulk_loop_spec g fmt dir articles_list.length articles_list 1
  refine ⟨by simp [save_generation_summary], rfl, ?_⟩
  unfold generate_bulk_articles
  rw [h4]
  simp [save_generation_summary, List.map_map]

/-- C9 counterexample: in a 2-request batch where request 1 succeeds and
request 2 fails all its attempts, the fixed pacing sleep still occurs
after request 1 — yet no later successful request follows it, so the
claimed "if and only if a later successful request follows" fails. -/
theorem pacing_counterexample :
    pace_events (generate_bulk_articles
        (fun i => if i = 1 then ⟨fun _ => some "# Hello\n\nWorld".toList, none, none⟩
                  else ⟨fun _ => none, none, none⟩)
        [⟨some "A".toList, none⟩, ⟨some "B".toList, none⟩]
        "markdown".toList "blog".toList).2
      = [(1, 2)] ∧
    ((generate_bulk_articles
        (fun i => if i = 1 then ⟨fun _ => some "# Hello\n\nWorld".toList, none, none⟩
                  else ⟨fun _ => none, none, none⟩)
        [⟨some "A".toList, none⟩, ⟨some "B".toList, none⟩]
        "markdown".toList "blog".toList).1.map ArticleData.title) = ["A".toList] := by
  decide

/-- C9 (amended): the fixed 2-second pacing sleep occurs after a request
exactly when that request had a non-empty title, its generation succeeded,
and it is not the last request of the batch — regardless of whether any
later request succeeds. -/
theorem pacing_after_successful_non_final_requests
    (g : Nat → GeminiOracle) (articles_list : List ArticleRequest) (fmt dir : Str) :
    pace_events (generate_bulk_articles g articles_list fmt dir).2
      = ((List.range' 1 articles_list.length).zip articles_list).filterMap
          (fun p => if p.2.title.getD [] = [] then none
            else if (generate_article_with_gemini (g p.1) (p.2.title.getD [])
                  (p.2.description.getD []) 3).1.isSome = true ∧ p.1 < articles_list.length
              then some (p.1, 2) else none) := by
  obtain ⟨-, -, -, -, h5⟩ :=
    bulk_loop_spec g fmt dir articles_list.length articles_list 1
  exact h5

/-! Membership transfer between a trace and its extracted event lists
(for C10). -/

theorem warn_mem_iff (t : List Ev) (j : Nat) : Ev.warn j ∈ t ↔ j ∈ warn_events t := by
  induction t with
  | nil => simp [warn_events]
  | cons e t ih => cases e <;> simp [warn_events, ih]

theorem genCall_mem_iff (t : List Ev) (j : Nat) : Ev.genCall j ∈ t ↔ j ∈ genCall_events t := by
  induction t with
  | nil => simp [genCall_events]
  | cons e t ih => cases e <;> simp [genCall_events, ih]

theorem zip_range'_index (reqs : List ArticleRequest) :
    ∀ (i j : Nat) (r : ArticleRequest),
      (j, r) ∈ (List.range' i reqs.length).zip reqs →
      i ≤ j ∧ reqs[j - i]? = some r := by
  induction reqs with
  | nil =>
    intro i j r h
    simp at h
  | cons a rest ih =>
    intro i j r h
    rw [List.length_cons, List.range'_succ, List.zip_cons_cons] at h
    rcases List.mem_cons.mp h with heq | htail
    · injection heq with h1 h2
      subst h1
      subst h2
      exact ⟨Nat.le_refl _, by simp⟩
    · obtain ⟨hle, hget⟩ := ih (i + 1) j r htail
      refine ⟨by omega, ?_⟩
      have hdiff : j - i = (j - (i + 1)) + 1 := by omega
      rw [hdiff, List.getElem?_cons_succ]
      exact hget

theorem zip_range'_mem_middle (i : Nat) (l₁ l₂ : List ArticleRequest) (r : ArticleRequest) :
    (i + l₁.length, r) ∈ (List.range' i (l₁ ++ r :: l₂).length).zip (l₁ ++ r :: l₂) := by
  have hlen : (l₁ ++ r :: l₂).length = l₁.length + (1 + l₂.length) := by
    simp [List.length_append]
    omega
  have hsplit : List.range' i (l₁ ++ r :: l₂).length
      = List.range' i l₁.length ++ List.range' (i + l₁.length) (1 + l₂.length) := by
    rw [List.range'_append_1, hlen, Nat.add_comm (1 + l₂.length) l₁.length]
  rw [hsplit, List.zip_append (by simp)]
  apply List.mem_append_right
  rw [show (1 + l₂.length) = l₂.length + 1 from Nat.add_comm _ _, List.range'_succ,
    List.zip_cons_cons]
  exact List.mem_cons_self _ _

theorem bulk_loop_congr (g : Nat → GeminiOracle) (fmt dir : Str) (n : Nat) :
    ∀ (reqs reqs' : List ArticleRequest) (i : Nat),
      reqs.map (fun r => (r.title.getD [], r.description.getD []))
        = reqs'.map (fun r => (r.title.getD [], r.description.getD [])) →
      bulk_loop g fmt dir n i reqs = bulk_loop g fmt dir n i reqs' := by
  intro reqs
  induction reqs with
  | nil =>
    intro reqs' i h
    cases reqs' with
    | nil => rfl
    | cons a l => simp at h
  | cons req rest ih =>
    intro reqs' i h
    cases reqs' with
    | nil => simp at h
    | cons req' rest' =>
      simp only [List.map_cons, List.cons.injEq, Prod.mk.injEq] at h
      obtain ⟨⟨ht, hd⟩, htail⟩ := h
      simp only [bulk_loop]
      rw [← ht, ← hd, ih rest' (i + 1) htail]

/-- C10: a request with no `'title'` key at all is handled exactly like
one whose title is the empty string: the whole run is unchanged by the
substitution, the request is skipped with a warning at its index, and no
generation call is made for it. -/
theorem missing_title_key_treated_as_empty_title
    (g : Nat → GeminiOracle) (l₁ l₂ : List ArticleRequest) (desc : Option Str)
    (fmt dir : Str) :
    generate_bulk_articles g (l₁ ++ ⟨none, desc⟩ :: l₂) fmt dir
      = generate_bulk_articles g (l₁ ++ ⟨some [], desc⟩ :: l₂) fmt dir
    ∧ Ev.warn (l₁.length + 1)
        ∈ (generate_bulk_articles g (l₁ ++ ⟨none, desc⟩ :: l₂) fmt dir).2
    ∧ Ev.genCall (l₁.length + 1)
        ∉ (generate_bulk_articles g (l₁ ++ ⟨none, desc⟩ :: l₂) fmt dir).2 := by
  refine ⟨?_, ?_, ?_⟩
  · rw [generate_bulk_articles, generate_bulk_articles]
    have hlen : (l₁ ++ (⟨none, desc⟩ : ArticleRequest) :: l₂).length
        = (l₁ ++ (⟨some [], desc⟩ : ArticleRequest) :: l₂).length := by
      simp
    rw [hlen]
    apply bulk_loop_congr
    simp
  · obtain ⟨-, h2, -, -, -⟩ := bulk_loop_spec g fmt dir
      (l₁ ++ (⟨none, desc⟩ : ArticleRequest) :: l₂).length
      (l₁ ++ (⟨none, desc⟩ : ArticleRequest) :: l₂) 1
    unfold generate_bulk_articles
    rw [warn_mem_iff, h2]
    apply List.mem_filterMap.mpr
    refine ⟨(1 + l₁.length, ⟨none, desc⟩), zip_range'_mem_middle 1 l₁ l₂ _, ?_⟩
    have hc : ((1 + l₁.length, (⟨none, desc⟩ : ArticleRequest)).2.title.getD ([] : Str)) = [] :=
      rfl
    rw [if_pos hc]
    simp [Nat.add_comm]
  · obtain ⟨-, -, h3, -, -⟩ := bulk_loop_spec g fmt dir
      (l₁ ++ (⟨none, desc⟩ : ArticleRequest) :: l₂).length
      (l₁ ++ (⟨none, desc⟩ : ArticleRequest) :: l₂) 1
    unfold generate_bulk_articles
    rw [genCall_mem_iff, h3]
    intro hmem
    obtain ⟨⟨j, req⟩, hpair, hout⟩ := List.mem_filterMap.mp hmem
    by_cases ht : req.title.getD [] = []
    · rw [if_pos ht] at hout
      cases hout
    · rw [if_neg ht] at hout
      have hj : j = l₁.length + 1 := by
        simpa using hout
      obtain ⟨hle, hget⟩ := zip_range'_index _ 1 j req hpair
      rw [hj] at hget
      have hidx : l₁.length + 1 - 1 = l₁.length := by omega
      rw [hidx, List.getElem?_append_right (Nat.le_refl _), Nat.sub_self,
        List.getElem?_cons_zero] at hget
      have hreq : req = (⟨none, desc⟩ : ArticleRequest) := by
        injection hget.symm
      rw [hreq] at ht
      exact ht rfl

end BlogGen
